import Mathlib

/-!
Shallow embedding of the STM32 flash low-level driver (`src/src/flash.c`),
a C module built on the STM32 HAL library.  All machine integers in the C
source are `uint32_t`; they are modelled as `Nat` with explicit reduction
modulo `2^32 = 4294967296` exactly where the C arithmetic can wrap.
Compile-time configuration macros (`flash_cfg.h` and HAL macros) become the
fields of `FlashCfg`.  Hardware (HAL) calls become oracle parameters
(`EraseInit → Bool`, etc.); each driver function additionally returns the
trace of hardware requests it submitted, in submission order, so that
sequencing and "no hardware touched" properties can be stated.
-/

/-- Wrap-around 32-bit addition, models `a + b` on `uint32_t`. -/
def add32 (a b : Nat) : Nat := (a + b) % 4294967296

/-- Wrap-around 32-bit subtraction, models `a - b` on `uint32_t`
(arguments are assumed to be 32-bit values, i.e. `< 4294967296`). -/
def sub32 (a b : Nat) : Nat := (a + 4294967296 - b) % 4294967296

/-- Status type of the driver.  Modelled from the spec: `flash.h` (which
declares `flash_status_t`) is not among the sources; per the spec's error
taxonomy every hardware-controller failure is surfaced to the caller as an
error status, so the C assignment `status = false` on a failed
`HAL_FLASHEx_Erase` is modelled as `eFLASH_ERROR`. -/
inductive FlashStatus where
  | eFLASH_OK : FlashStatus
  | eFLASH_ERROR : FlashStatus
deriving DecidableEq, Repr

export FlashStatus (eFLASH_OK eFLASH_ERROR)

/-- Compile-time configuration of the driver: the `FLASH_CFG_*` macros of
`flash_cfg.h` together with the HAL macros `FLASH_BASE` (start of flash in
the address map) and `FLASH_PAGE_NB` (number of pages per bank). -/
structure FlashCfg where
  page_size : Nat
  start_addr : Nat
  size_byte : Nat
  bank1_start : Nat
  bank2_start : Nat
  flash_base : Nat
  page_nb : Nat
deriving DecidableEq, Repr

/-- The HAL `FLASH_EraseInitTypeDef` structure as filled in by the driver.
`typeErase = true` renders `FLASH_TYPEERASE_MASSERASE`, `typeErase = false`
renders `FLASH_TYPEERASE_PAGES`.  `banks` is `1` for `FLASH_BANK_1` and `2`
for `FLASH_BANK_2`.  The zero initializer `{0}` of the C source is
`⟨false, 0, 0, 0⟩`. -/
structure EraseInit where
  typeErase : Bool
  banks : Nat
  page : Nat
  nbPages : Nat
deriving DecidableEq, Repr

/-- `flash_count_page` (flash.c lines 106-118): number of pages touched by
the byte range, computed entirely in `uint32_t` arithmetic:
`start = addr / P`, `end = (addr + size - 1) / P`, result `end - start + 1`. -/
def flash_count_page (P addr size : Nat) : Nat :=
  let start_sector_num := addr / P
  let end_sector_num := sub32 (add32 addr size) 1 / P
  add32 (sub32 end_sector_num start_sector_num) 1

/-- The guard condition shared by `flash_write`, `flash_read` and
`flash_erase` (e.g. flash.c line 466):
`( addr >= FLASH_CFG_START_ADDR ) && ( size <= FLASH_CFG_SIZE_BYTE )`. -/
def flash_validate (cfg : FlashCfg) (addr size : Nat) : Bool :=
  decide (cfg.start_addr ≤ addr) && decide (size ≤ cfg.size_byte)

/-- Modelled from the spec: RegionGuard `validate(addr, size, region)`
requires `addr ≥ region.start_address` and
`addr + size ≤ region.start_address + region.size_bytes`.  Written from the
spec's words only, for comparison against `flash_validate`, which is the
check the source actually performs. -/
def region_validate (cfg : FlashCfg) (addr size : Nat) : Bool :=
  decide (cfg.start_addr ≤ addr) && decide (addr + size ≤ cfg.start_addr + cfg.size_byte)

/-- The bank-splitting step of `flash_erase_dual_bank` (flash.c lines
177-206): fills `bank_data[eFLASH_BANK_NUM_OF] = {0}` from the request.
Returns `((bank1_addr, bank1_size), (bank2_addr, bank2_size))`. -/
def flash_bank_split (cfg : FlashCfg) (addr size : Nat) : (Nat × Nat) × (Nat × Nat) :=
  if addr < cfg.bank2_start then
    if add32 addr size < cfg.bank2_start then
      ((addr, size), (0, 0))
    else
      ((addr, sub32 cfg.bank2_start addr),
       (cfg.bank2_start, sub32 size (sub32 cfg.bank2_start addr)))
  else
    ((0, 0), (addr, size))

/-- One iteration of the per-bank erase loop of `flash_erase_dual_bank`
(flash.c lines 209-241).  `bank` is the loop index (`0 = eFLASH_BANK_1`,
`1 = eFLASH_BANK_2`); the state is `(status, flash_erase struct, trace of
HAL_FLASHEx_Erase calls)`.  The `FLASH_EraseInitTypeDef` struct is reused
across iterations exactly as in the C source: `TypeErase` and `Banks` are
always reassigned, `Page`/`NbPages` only when a pages-type erase is
selected.  A failed HAL call sets the error status but does NOT break the
loop (there is no `break` in the source). -/
def flash_erase_bank_body (cfg : FlashCfg) (halOk : EraseInit → Bool) (bank : Nat)
    (bankAddr bankSize : Nat) (st : FlashStatus × EraseInit × List EraseInit) :
    FlashStatus × EraseInit × List EraseInit :=
  if 0 < bankSize then
    let base := if bank = 0 then cfg.bank1_start else cfg.bank2_start
    let start_page := sub32 bankAddr base / cfg.page_size
    let num_of_pages := flash_count_page cfg.page_size bankAddr bankSize
    let fe1 : EraseInit :=
      { st.2.1 with typeErase := num_of_pages == cfg.page_nb
                    banks := if bank = 0 then 1 else 2 }
    let fe2 : EraseInit :=
      if fe1.typeErase = false then { fe1 with page := start_page, nbPages := num_of_pages }
      else fe1
    (if halOk fe2 then st.1 else eFLASH_ERROR, fe2, st.2.2 ++ [fe2])
  else st

/-- `flash_erase_dual_bank` (flash.c lines 173-244): split the range by
bank, then run the per-bank loop for bank 1 and then bank 2.  Returns the
final status and the ordered trace of HAL erase requests submitted. -/
def flash_erase_dual_bank (cfg : FlashCfg) (halOk : EraseInit → Bool) (addr size : Nat) :
    FlashStatus × List EraseInit :=
  let bd := flash_bank_split cfg addr size
  let st0 : FlashStatus × EraseInit × List EraseInit := (eFLASH_OK, ⟨false, 0, 0, 0⟩, [])
  let st1 := flash_erase_bank_body cfg halOk 0 bd.1.1 bd.1.2 st0
  let st2 := flash_erase_bank_body cfg halOk 1 bd.2.1 bd.2.2 st1
  (st2.1, st2.2.2)

/-- `flash_erase_single_bank` (flash.c lines 131-158): always a pages-type
erase of bank 1 (`TypeErase = FLASH_TYPEERASE_PAGES`, `Banks =
FLASH_BANK_1`), with `Page = (addr - FLASH_BASE) / page_size` and
`NbPages = flash_count_page(addr, size)`; one HAL call. -/
def flash_erase_single_bank (cfg : FlashCfg) (halOk : EraseInit → Bool) (addr size : Nat) :
    FlashStatus × List EraseInit :=
  let start_page := sub32 addr cfg.flash_base / cfg.page_size
  let num_of_pages := flash_count_page cfg.page_size addr size
  let fe : EraseInit := ⟨false, 1, start_page, num_of_pages⟩
  (if halOk fe then eFLASH_OK else eFLASH_ERROR, [fe])

/-- `flash_erase` (flash.c lines 458-487): guard on the init flag and the
region check, then dispatch on the compile-time `FLASH_CFG_DUAL_BANK_MODE_EN`
switch (modelled by the `dual` flag).  On a failed guard nothing is
submitted to the hardware. -/
def flash_erase (cfg : FlashCfg) (halOk : EraseInit → Bool) (dual gb_is_init : Bool)
    (addr size : Nat) : FlashStatus × List EraseInit :=
  if gb_is_init && flash_validate cfg addr size then
    if dual then flash_erase_dual_bank cfg halOk addr size
    else flash_erase_single_bank cfg halOk addr size
  else (eFLASH_ERROR, [])

/-- The 64-bit value `memcpy`-assembled from 8 consecutive bytes of the
input buffer starting at offset `dword` (flash.c line 387, little-endian). -/
def dword_bytes (data : Nat → Nat) (dword : Nat) : Nat :=
  ((List.range 8).map (fun i => data (dword + i) * 256 ^ i)).sum

/-- Offsets visited by the write loop `for (dword = 0; dword < size; dword += 8)`. -/
def dword_list (size : Nat) : List Nat := (List.range ((size + 7) / 8)).map (· * 8)

/-- The double-word programming loop of `flash_write` (flash.c lines
380-397): program each double word in order; on the first HAL failure set
the error status and `break`.  The trace records each
`HAL_FLASH_Program` call as `(address, data)`. -/
def flash_write_go (halProgOk : Nat → Nat → Bool) (data : Nat → Nat) (addr : Nat) :
    List Nat → FlashStatus × List (Nat × Nat)
  | [] => (eFLASH_OK, [])
  | d :: rest =>
    let flash_addr := add32 addr d
    let flash_data := dword_bytes data d
    if halProgOk flash_addr flash_data then
      let r := flash_write_go halProgOk data addr rest
      (r.1, (flash_addr, flash_data) :: r.2)
    else (eFLASH_ERROR, [(flash_addr, flash_data)])

/-- `flash_write` (flash.c lines 366-405): guard on init flag, region check
and non-NULL data pointer (`p_data = none` models `NULL`), then run the
programming loop. -/
def flash_write (cfg : FlashCfg) (halProgOk : Nat → Nat → Bool) (gb_is_init : Bool)
    (addr size : Nat) (p_data : Option (Nat → Nat)) : FlashStatus × List (Nat × Nat) :=
  if gb_is_init && flash_validate cfg addr size && p_data.isSome then
    match p_data with
    | some data => flash_write_go halProgOk data addr (dword_list size)
    | none => (eFLASH_ERROR, [])
  else (eFLASH_ERROR, [])

/-- Offsets visited by the read loop `for (word = 0; word < size; word += 4)`. -/
def word_list (size : Nat) : List Nat := (List.range ((size + 3) / 4)).map (· * 4)

/-- `flash_read` (flash.c lines 417-447): guard on init flag, region check
and non-NULL output pointer (`p_buf = false` models `NULL`), then copy one
32-bit word per iteration directly from mapped memory `mem`.  The trace
records each memory access as `(address, value read)`. -/
def flash_read (cfg : FlashCfg) (mem : Nat → Nat) (gb_is_init : Bool)
    (addr size : Nat) (p_buf : Bool) : FlashStatus × List (Nat × Nat) :=
  if gb_is_init && flash_validate cfg addr size && p_buf then
    (eFLASH_OK, (word_list size).map (fun w => (add32 addr w, mem (add32 addr w))))
  else (eFLASH_ERROR, [])

/-- `flash_init` (flash.c lines 270-295): if not yet initialized, unlock the
flash (`unlockOk` is the HAL_FLASH_Unlock outcome); on success set the init
flag.  If already initialized, do nothing and return OK.  Returns
`(status, new value of gb_is_init)`. -/
def flash_init (unlockOk gb_is_init : Bool) : FlashStatus × Bool :=
  if gb_is_init = false then
    if unlockOk then (eFLASH_OK, true) else (eFLASH_ERROR, false)
  else (eFLASH_OK, gb_is_init)

/-- `flash_deinit` (flash.c lines 304-326): if initialized, lock the flash
(`lockOk` is the HAL_FLASH_Lock outcome); on success clear the init flag.
If not initialized, do nothing and return OK. -/
def flash_deinit (lockOk gb_is_init : Bool) : FlashStatus × Bool :=
  if gb_is_init = true then
    if lockOk then (eFLASH_OK, false) else (eFLASH_ERROR, true)
  else (eFLASH_OK, gb_is_init)

/-- `flash_is_init` (flash.c lines 336-354) with a non-NULL pointer:
reports the init flag and returns OK. -/
def flash_is_init (gb_is_init : Bool) : FlashStatus × Bool :=
  (eFLASH_OK, gb_is_init)

/-- A concrete configuration used for witnesses and counterexamples:
page size 2048, user region `[4096, 4096+2048)`, dual-bank boundary at
4096, two pages per bank, flash base 0. -/
def cfgA : FlashCfg :=
  { page_size := 2048, start_addr := 4096, size_byte := 2048,
    bank1_start := 0, bank2_start := 4096, flash_base := 0, page_nb := 2 }

/-- HAL erase oracle that always succeeds. -/
def halAlwaysOk : EraseInit → Bool := fun _ => true

/-- HAL erase oracle that fails exactly on bank-1 requests. -/
def halFailBank1 : EraseInit → Bool := fun r => r.banks != 1

/-! ### Helper lemmas -/

/-- Recombination step of the page count: in range, `(q - s) + 1` survives
the u32 wrap-arounds. -/
lemma count_combine (q s : Nat) (hs : s ≤ q) (_hq : q < 4294967296)
    (hb : q - s + 1 < 4294967296) : add32 (sub32 q s) 1 = q - s + 1 := by
  simp only [add32, sub32]; omega

/-- In-range behaviour of the u32 page-count computation: for a non-empty
range that does not wrap the 32-bit address space, `flash_count_page` is the
pure arithmetic `end_page - start_page + 1`. -/
lemma flash_count_page_eq (P addr size : Nat) (h1 : 1 ≤ size)
    (hs : size < 4294967296) (hle : addr + size ≤ 4294967296) :
    flash_count_page P addr size = (addr + size - 1) / P - addr / P + 1 := by
  simp only [flash_count_page]
  have hx : sub32 (add32 addr size) 1 = addr + size - 1 := by
    simp only [add32, sub32]; omega
  rw [hx]
  have hse : addr / P ≤ (addr + size - 1) / P := Nat.div_le_div_right (by omega)
  have heN : (addr + size - 1) / P < 4294967296 :=
    lt_of_le_of_lt (Nat.div_le_self _ _) (by omega)
  refine count_combine _ _ hse heN ?_
  obtain ⟨X, hX⟩ : ∃ t, (addr + size - 1) / P = t := ⟨_, rfl⟩
  obtain ⟨C, hC⟩ : ∃ t, addr / P = t := ⟨_, rfl⟩
  rw [hX, hC]
  rcases Nat.lt_or_ge P 2 with hP1 | hP2
  · have hP01 : P = 0 ∨ P = 1 := by omega
    rcases hP01 with h | h
    · subst h
      simp only [Nat.div_zero] at hX
      omega
    · subst h
      simp only [Nat.div_one] at hX hC
      omega
  · have h4 : (addr + size - 1) / P ≤ (addr + size - 1) / 2 :=
      Nat.div_le_div_left hP2 (by omega)
    have h5 : (addr + size - 1) / 2 ≤ 4294967295 / 2 :=
      Nat.div_le_div_right (by omega)
    rw [hX] at h4
    obtain ⟨Y, hY⟩ : ∃ t, (addr + size - 1) / 2 = t := ⟨_, rfl⟩
    rw [hY] at h4 h5
    norm_num at h5
    omega

/-- For `m ≥ 1` and `P ≥ 1`, `(m * P - 1) / P = m - 1`. -/
lemma mul_sub_one_div (m P : Nat) (hm : 1 ≤ m) (hP : 0 < P) :
    (m * P - 1) / P = m - 1 := by
  obtain ⟨m', rfl⟩ : ∃ m'', m = m'' + 1 := ⟨m - 1, by omega⟩
  have h : (m' + 1) * P - 1 = P - 1 + m' * P := by
    have := Nat.add_mul m' 1 P
    omega
  rw [h, Nat.add_mul_div_right _ _ hP, Nat.div_eq_of_lt (by omega)]
  omega

/-- When the requested range straddles the bank boundary (and the 32-bit sum
does not wrap), `flash_bank_split` produces the two expected sub-ranges. -/
lemma flash_bank_split_straddle (cfg : FlashCfg) (addr size : Nat)
    (h1 : addr < cfg.bank2_start) (h2 : cfg.bank2_start < addr + size)
    (h3 : addr + size < 4294967296) :
    flash_bank_split cfg addr size
      = ((addr, cfg.bank2_start - addr),
         (cfg.bank2_start, addr + size - cfg.bank2_start)) := by
  unfold flash_bank_split
  have ha : add32 addr size = addr + size := by simp only [add32]; omega
  have hb : sub32 cfg.bank2_start addr = cfg.bank2_start - addr := by
    simp only [sub32]; omega
  have hc : sub32 size (cfg.bank2_start - addr) = addr + size - cfg.bank2_start := by
    simp only [sub32]; omega
  rw [if_pos h1, ha, if_neg (by omega), hb, hc]

/-- The per-bank loop body with a non-empty sub-range appends exactly one
request to the trace, namely the final value of the erase struct. -/
lemma flash_erase_bank_body_trace (cfg : FlashCfg) (halOk : EraseInit → Bool)
    (bank bankAddr bankSize : Nat) (st : FlashStatus × EraseInit × List EraseInit)
    (hs : 0 < bankSize) :
    (flash_erase_bank_body cfg halOk bank bankAddr bankSize st).2.2
      = st.2.2 ++ [(flash_erase_bank_body cfg halOk bank bankAddr bankSize st).2.1] := by
  simp only [flash_erase_bank_body, if_pos hs]

/-- The request built by the per-bank loop body targets `FLASH_BANK_1` for
loop index 0 and `FLASH_BANK_2` otherwise. -/
lemma flash_erase_bank_body_banks (cfg : FlashCfg) (halOk : EraseInit → Bool)
    (bank bankAddr bankSize : Nat) (st : FlashStatus × EraseInit × List EraseInit)
    (hs : 0 < bankSize) :
    ((flash_erase_bank_body cfg halOk bank bankAddr bankSize st).2.1).banks
      = if bank = 0 then 1 else 2 := by
  simp only [flash_erase_bank_body, if_pos hs]
  split
  · rfl
  · rfl

/-! ### Claim theorems -/

/-- Claim C1, counterexample: the claim states that the entry-point
validation accepts iff `addr ≥ start` and `addr + size ≤ start + size_bytes`.
With region `[4096, 4096+2048)`, the request `addr = 8192, size = 8` has
`addr + size = 8200 > 6144 = start + size_bytes`, yet the code's validation
accepts it: the source only checks `addr ≥ start` and `size ≤ size_bytes`. -/
theorem flash_validate_not_region_bounded :
    flash_validate cfgA 8192 8 = true ∧ region_validate cfgA 8192 8 = false ∧
    ¬(8192 + 8 ≤ 4096 + 2048) := by
  refine ⟨by decide, by decide, by decide⟩

/-- Claim C1, amended: for every erase, write, or read call, the validation
accepts the request if and only if `addr ≥ region.start_address` and
`size ≤ region.size_bytes`; the upper end `addr + size` of the range is not
compared against the region end, so every request the spec's RegionGuard
would accept is accepted, but requests extending past the region end can be
accepted as well. -/
theorem flash_validate_characterization (cfg : FlashCfg) (addr size : Nat) :
    (flash_validate cfg addr size = true ↔
      cfg.start_addr ≤ addr ∧ size ≤ cfg.size_byte) ∧
    (region_validate cfg addr size = true → flash_validate cfg addr size = true) := by
  constructor
  · simp [flash_validate]
  · simp only [flash_validate, region_validate, Bool.and_eq_true, decide_eq_true_eq]
    intro h
    exact ⟨h.1, by omega⟩

/-- Claim C1, witness for the amended theorem at a concrete request. -/
theorem flash_validate_characterization_witness :
    flash_validate cfgA 4096 2048 = true :=
  (flash_validate_characterization cfgA 4096 2048).1.mpr ⟨by decide, by decide⟩

/-- Claim C7: `init` is idempotent and `deinit` is a no-op when not
initialized.  Starting from the uninitialized state with a succeeding
unlock, the first `init` returns OK and sets the flag; a second `init`
returns OK and leaves the flag set (whatever the unlock oracle then says);
`is_init` then reports `true`.  `deinit` from the never-initialized state
returns OK (whatever the lock oracle says) and leaves the flag cleared. -/
theorem flash_init_deinit_idempotent (u l : Bool) :
    flash_init true false = (eFLASH_OK, true) ∧
    flash_init u (flash_init true false).2 = (eFLASH_OK, true) ∧
    flash_is_init (flash_init u (flash_init true false).2).2 = (eFLASH_OK, true) ∧
    flash_deinit l false = (eFLASH_OK, false) ∧
    flash_is_init (flash_deinit l false).2 = (eFLASH_OK, false) := by
  cases u <;> cases l <;> exact ⟨rfl, rfl, rfl, rfl, rfl⟩

/-- Claim C8: every read, write, or erase call made while the driver is not
initialized returns the error status and submits nothing to the hardware:
no program operation, no erase request, no mapped-memory access (the
hardware trace is empty), for both single- and dual-bank builds. -/
theorem flash_not_initialized_no_hw (cfg : FlashCfg) (halProgOk : Nat → Nat → Bool)
    (mem : Nat → Nat) (halOk : EraseInit → Bool) (dual : Bool) (addr size : Nat)
    (p_data : Option (Nat → Nat)) (p_buf : Bool) :
    flash_write cfg halProgOk false addr size p_data = (eFLASH_ERROR, []) ∧
    flash_read cfg mem false addr size p_buf = (eFLASH_ERROR, []) ∧
    flash_erase cfg halOk dual false addr size = (eFLASH_ERROR, []) := by
  refine ⟨?_, ?_, ?_⟩ <;> simp [flash_write, flash_read, flash_erase]

/-- Claim C9: the initialization flag is unchanged when the underlying
hardware operation fails: if `HAL_FLASH_Unlock` fails during `init` the flag
stays `false` and an error is returned; if `HAL_FLASH_Lock` fails during
`deinit` the flag stays `true` and an error is returned. -/
theorem flash_init_deinit_state_on_error :
    flash_init false false = (eFLASH_ERROR, false) ∧
    flash_deinit false true = (eFLASH_ERROR, true) := by
  exact ⟨rfl, rfl⟩

/-- Claim C4: in a dual-bank layout with bank-2 base address `B`, an erase
range that straddles the boundary (`addr < B < addr + size`, with the sum
in 32-bit range) splits into exactly two sub-ranges, ordered bank-1 then
bank-2, the first covering `[addr, B)` and the second `[B, addr+size)`,
both non-empty. -/
theorem flash_bank_split_straddle_spec (cfg : FlashCfg) (addr size : Nat)
    (h1 : addr < cfg.bank2_start) (h2 : cfg.bank2_start < addr + size)
    (h3 : addr + size < 4294967296) :
    flash_bank_split cfg addr size
      = ((addr, cfg.bank2_start - addr),
         (cfg.bank2_start, addr + size - cfg.bank2_start)) ∧
    0 < cfg.bank2_start - addr ∧ 0 < addr + size - cfg.bank2_start := by
  exact ⟨flash_bank_split_straddle cfg addr size h1 h2 h3, by omega, by omega⟩

/-- Claim C4, witness: with the boundary at `B = 4096`, the range
`[B-1, B+1)` splits into two sub-ranges of size 1 each. -/
theorem flash_bank_split_straddle_spec_witness :
    flash_bank_split cfgA 4095 2 = ((4095, 1), (4096, 1)) := by
  have h := (flash_bank_split_straddle_spec cfgA 4095 2 (by decide) (by decide)
    (by decide)).1
  simpa using h

/-- Claim C5: for every `addr` and every `size ≥ 1` (32-bit values whose sum
does not wrap the address space), the page-count computation returns exactly
`end_page - start_page + 1` with `end_page = (addr + size - 1) / P` and
`start_page = addr / P`; consequently a range lying fully inside one page
(same start and end page) returns 1. -/
theorem flash_count_page_formula (P addr size : Nat) (h1 : 1 ≤ size)
    (hs : size < 4294967296) (hle : addr + size ≤ 4294967296) :
    flash_count_page P addr size = (addr + size - 1) / P - addr / P + 1 ∧
    (addr / P = (addr + size - 1) / P → flash_count_page P addr size = 1) := by
  have h := flash_count_page_eq P addr size h1 hs hle
  refine ⟨h, fun hone => ?_⟩
  rw [h, ← hone, Nat.sub_self]

/-- Claim C5, witness: the range `[4096, 4196)` lies inside one 2048-byte
page, and the computation returns 1. -/
theorem flash_count_page_formula_witness :
    flash_count_page 2048 4096 100 = 1 :=
  (flash_count_page_formula 2048 4096 100 (by decide) (by decide) (by decide)).2
    (by decide)

/-- Claim C6: for every page-aligned `addr` and every positive `size` that
is an exact multiple of the page size `P` (in 32-bit range), the page-count
computation returns exactly `size / P`. -/
theorem flash_count_page_aligned (P addr size : Nat) (hP : 0 < P)
    (haddr : addr % P = 0) (hsize : size % P = 0) (h1 : 1 ≤ size)
    (hs : size < 4294967296) (hle : addr + size ≤ 4294967296) :
    flash_count_page P addr size = size / P := by
  obtain ⟨a, rfl⟩ : ∃ a, addr = a * P := ⟨addr / P, by
    have := Nat.div_mul_cancel (Nat.dvd_of_mod_eq_zero haddr)
    omega⟩
  obtain ⟨k, rfl⟩ : ∃ k, size = k * P := ⟨size / P, by
    have := Nat.div_mul_cancel (Nat.dvd_of_mod_eq_zero hsize)
    omega⟩
  have hk : 1 ≤ k := by
    rcases Nat.eq_zero_or_pos k with h | h
    · subst h; simp at h1
    · exact h
  rw [flash_count_page_eq P (a * P) (k * P) h1 hs hle]
  have hsum : a * P + k * P - 1 = (a + k) * P - 1 := by rw [Nat.add_mul]
  rw [hsum, mul_sub_one_div (a + k) P (by omega) hP, Nat.mul_div_cancel _ hP,
    Nat.mul_div_cancel _ hP]
  omega

/-- Claim C6, witness: `addr = 4096`, `size = 4096`, `P = 2048` gives
`4096 / 2048 = 2` pages. -/
theorem flash_count_page_aligned_witness :
    flash_count_page 2048 4096 4096 = 2 := by
  have h := flash_count_page_aligned 2048 4096 4096 (by decide) (by decide)
    (by decide) (by decide) (by decide) (by decide)
  simpa using h

/-- Claim C10: a zero-size request passes the entry-point validation
(`size = 0` satisfies the size bound), and the page-count computation then
evaluates `addr + 0 - 1` with 32-bit wrap-around: for a page-aligned
`addr > 0` the result is 0, while for `addr = 0` the subtraction wraps to
`2^32 - 1` and the result is `(2^32 - 1) / page_size + 1` pages. -/
theorem flash_zero_size_behavior (cfg : FlashCfg) (addr P a : Nat) :
    (cfg.start_addr ≤ addr → flash_validate cfg addr 0 = true) ∧
    (0 < P → 0 < a → a * P < 4294967296 → flash_count_page P (a * P) 0 = 0) ∧
    (2 ≤ P → flash_count_page P 0 0 = (4294967296 - 1) / P + 1) := by
  refine ⟨?_, ?_, ?_⟩
  · intro h
    simp [flash_validate, h]
  · intro hP ha haN
    simp only [flash_count_page]
    have h1 : add32 (a * P) 0 = a * P := by simp only [add32]; omega
    rw [h1]
    have h2 : sub32 (a * P) 1 = a * P - 1 := by
      simp only [sub32]
      have : 0 < a * P := Nat.mul_pos ha hP
      omega
    rw [h2, mul_sub_one_div a P (by omega) hP, Nat.mul_div_cancel _ hP]
    obtain ⟨a', rfl⟩ : ∃ a'', a = a'' + 1 := ⟨a - 1, by omega⟩
    have h3 : sub32 a' (a' + 1) = 4294967295 := by simp only [sub32]; omega
    have h4 : a' + 1 - 1 = a' := by omega
    rw [h4, h3]
    simp only [add32]
  · intro hP
    simp only [flash_count_page]
    have h1 : add32 0 0 = 0 := by simp only [add32]
    have h2 : sub32 0 1 = 4294967295 := by simp only [sub32]
    rw [h1, h2, Nat.zero_div]
    have hq : 4294967295 / P < 4294967296 :=
      lt_of_le_of_lt (Nat.div_le_self _ _) (by omega)
    have h3 : sub32 (4294967295 / P) 0 = 4294967295 / P := by
      simp only [sub32]
      obtain ⟨X, hX⟩ : ∃ t, (4294967295 : Nat) / P = t := ⟨_, rfl⟩
      rw [hX] at hq ⊢
      omega
    rw [h3]
    have h4 : 4294967295 / P ≤ 4294967295 / 2 := Nat.div_le_div_left hP (by omega)
    have h5 : (4294967295 : Nat) / 2 = 2147483647 := by norm_num
    simp only [add32]
    obtain ⟨X, hX⟩ : ∃ t, (4294967295 : Nat) / P = t := ⟨_, rfl⟩
    rw [hX] at h4 ⊢
    rw [h5] at h4
    omega

/-- Claim C10, witness: with page size 2048, a zero-size request at the
page-aligned address 4096 passes validation and counts 0 pages, while a
zero-size request at address 0 counts `(2^32 - 1) / 2048 + 1 = 2097152`
pages. -/
theorem flash_zero_size_behavior_witness :
    flash_validate cfgA 4096 0 = true ∧ flash_count_page 2048 4096 0 = 0 ∧
    flash_count_page 2048 0 0 = 2097152 := by
  refine ⟨(flash_zero_size_behavior cfgA 4096 2048 2).1 (by decide),
    ?_, ?_⟩
  · exact (flash_zero_size_behavior cfgA 4096 2048 2).2.1 (by decide) (by decide)
      (by decide)
  · have h := (flash_zero_size_behavior cfgA 4096 2048 2).2.2 (by decide)
    rw [h]

/-- Claim C2, counterexample: the claim states that a dual-bank erase stops
at the first controller failure.  With the boundary at 4096 and the range
`[2048, 6144)` (one page in each bank), an oracle that fails exactly on the
bank-1 request still yields a trace of BOTH requests: the bank-2 erase is
attempted although the bank-1 erase failed (the C loop has no `break`). -/
theorem flash_erase_dual_bank_no_abort :
    (flash_erase_dual_bank cfgA halFailBank1 2048 4096).2
      = [⟨false, 1, 1, 1⟩, ⟨false, 2, 0, 1⟩] ∧
    halFailBank1 ⟨false, 1, 1, 1⟩ = false ∧
    (flash_erase_dual_bank cfgA halFailBank1 2048 4096).1 = eFLASH_ERROR := by
  decide

/-- Claim C2, amended: for every dual-bank erase whose range produces two
per-bank erase requests, the requests are submitted to the flash controller
in ascending bank order (bank 1 first, then bank 2); execution does NOT
stop at the first controller failure: whatever the controller answers (for
any oracle `halOk`, in particular one failing the first request), both
requests are submitted. -/
theorem flash_erase_dual_bank_order (cfg : FlashCfg) (halOk : EraseInit → Bool)
    (addr size : Nat) (h1 : addr < cfg.bank2_start)
    (h2 : cfg.bank2_start < addr + size) (h3 : addr + size < 4294967296) :
    ((flash_erase_dual_bank cfg halOk addr size).2).map EraseInit.banks = [1, 2] := by
  have hs1 : 0 < cfg.bank2_start - addr := by omega
  have hs2 : 0 < addr + size - cfg.bank2_start := by omega
  simp only [flash_erase_dual_bank]
  rw [flash_bank_split_straddle cfg addr size h1 h2 h3]
  show ((flash_erase_bank_body cfg halOk 1 cfg.bank2_start
      (addr + size - cfg.bank2_start)
      (flash_erase_bank_body cfg halOk 0 addr (cfg.bank2_start - addr)
        (eFLASH_OK, ⟨false, 0, 0, 0⟩, []))).2.2).map EraseInit.banks = [1, 2]
  rw [flash_erase_bank_body_trace cfg halOk 1 cfg.bank2_start
    (addr + size - cfg.bank2_start) _ hs2]
  rw [flash_erase_bank_body_trace cfg halOk 0 addr (cfg.bank2_start - addr) _ hs1]
  simp [flash_erase_bank_body_banks cfg halOk 1 cfg.bank2_start
      (addr + size - cfg.bank2_start) _ hs2,
    flash_erase_bank_body_banks cfg halOk 0 addr (cfg.bank2_start - addr) _ hs1]

/-- Claim C2, witness for the amended theorem: the straddling range
`[2048, 6144)` with an oracle failing the bank-1 request still submits
bank 1 then bank 2. -/
theorem flash_erase_dual_bank_order_witness :
    ((flash_erase_dual_bank cfgA halFailBank1 2048 4096).2).map EraseInit.banks
      = [1, 2] :=
  flash_erase_dual_bank_order cfgA halFailBank1 2048 4096 (by decide) (by decide)
    (by decide)

/-- Claim C3, counterexample: the claim states that in both single-bank and
dual-bank configurations a MassErase is emitted iff the computed page count
equals the bank's total pages.  In the single-bank configuration, erasing
the whole bank (page count `2 = FLASH_PAGE_NB`) still emits a pages-type
request (`typeErase = false`): the single-bank path never mass-erases. -/
theorem flash_erase_single_bank_no_masserase :
    flash_count_page cfgA.page_size 0 4096 = cfgA.page_nb ∧
    (flash_erase_single_bank cfgA halAlwaysOk 0 4096).2 = [⟨false, 1, 0, 2⟩] := by
  decide

/-- Claim C3, amended: in the dual-bank configuration, each per-bank erase
request reaching the controller is a MassErase iff the computed page count
for that bank equals `FLASH_PAGE_NB`, and otherwise a pages-type request
carrying the matching start page and page count; in the single-bank
configuration the emitted request is always a pages-type request with the
matching start page and page count (MassErase is never used). -/
theorem flash_erase_masserase_policy :
    (∀ (cfg : FlashCfg) (halOk : EraseInit → Bool) (bank a s : Nat)
      (st : FlashStatus × EraseInit × List EraseInit), 0 < s →
      (((flash_erase_bank_body cfg halOk bank a s st).2.1).typeErase = true ↔
        flash_count_page cfg.page_size a s = cfg.page_nb) ∧
      (((flash_erase_bank_body cfg halOk bank a s st).2.1).typeErase = false →
        ((flash_erase_bank_body cfg halOk bank a s st).2.1).page
          = sub32 a (if bank = 0 then cfg.bank1_start else cfg.bank2_start)
              / cfg.page_size ∧
        ((flash_erase_bank_body cfg halOk bank a s st).2.1).nbPages
          = flash_count_page cfg.page_size a s)) ∧
    (∀ (cfg : FlashCfg) (halOk : EraseInit → Bool) (addr size : Nat),
      (flash_erase_single_bank cfg halOk addr size).2
        = [⟨false, 1, sub32 addr cfg.flash_base / cfg.page_size,
            flash_count_page cfg.page_size addr size⟩]) := by
  constructor
  · intro cfg halOk bank a s st hs
    by_cases hmass : flash_count_page cfg.page_size a s = cfg.page_nb
    · have hb : (flash_count_page cfg.page_size a s == cfg.page_nb) = true := by
        simp [hmass]
      simp [flash_erase_bank_body, if_pos hs, hb, hmass]
    · have hb : (flash_count_page cfg.page_size a s == cfg.page_nb) = false := by
        simp [hmass]
      simp [flash_erase_bank_body, if_pos hs, hb, hmass]
  · intro cfg halOk addr size
    rfl

/-- Claim C3, witness for the amended theorem: erasing all of bank 1
(`[0, 4096)`, two pages of 2048 with `FLASH_PAGE_NB = 2`) through the
dual-bank loop body emits a MassErase request. -/
theorem flash_erase_masserase_policy_witness :
    ((flash_erase_bank_body cfgA halAlwaysOk 0 0 4096
      (eFLASH_OK, ⟨false, 0, 0, 0⟩, [])).2.1).typeErase = true :=
  (flash_erase_masserase_policy.1 cfgA halAlwaysOk 0 0 4096
    (eFLASH_OK, ⟨false, 0, 0, 0⟩, []) (by decide)).1.mpr (by decide)

/-- Claim C7, witness at concrete oracle values: the second `init` after a
successful first `init` returns OK with the flag still set. -/
theorem flash_init_deinit_idempotent_witness :
    flash_init true (flash_init true false).2 = (eFLASH_OK, true) :=
  (flash_init_deinit_idempotent true true).2.1

/-- Claim C8, witness at a concrete request: an uninitialized write fails
with an empty hardware trace. -/
theorem flash_not_initialized_no_hw_witness :
    flash_write cfgA (fun _ _ => true) false 4096 8 (some (fun _ => 0))
      = (eFLASH_ERROR, []) :=
  (flash_not_initialized_no_hw cfgA (fun _ _ => true) (fun _ => 0) halAlwaysOk true
    4096 8 (some (fun _ => 0)) true).1
